import Mathlib

/-
  Verification of the scenario-normalization, navigation, evaluation-form and
  assignment-context logic of the qa-system repository (src/app.js and the
  offline data editor in src/unnamed/part_000).

  JavaScript values are modelled by the JSValue inductive below; JavaScript
  semantics (truthiness, String(...) coercion, member access, spread, the
  ES2015 own-key ordering with canonical array indices first) are embedded as
  executable Lean functions, and each function of the source is translated
  1:1 on top of them.
-/

namespace QA

/-- A JavaScript value: undefined, null, boolean, number (modelled as an
integer, floats do not occur in the embedded paths), string, array, object
(ordered field list; JS objects never carry duplicate keys). -/
inductive JSValue where
  | undefined
  | null
  | bool (b : Bool)
  | num (n : Int)
  | str (s : String)
  | arr (items : List JSValue)
  | obj (fields : List (String × JSValue))

/-- A JS object body: ordered list of key-value pairs. -/
abbrev ObjMap := List (String × JSValue)

/- ---------------- string helpers (JS semantics) ---------------- -/

/-- The whitespace characters stripped by String.prototype.trim (ASCII part). -/
def isJsWhitespace (c : Char) : Bool :=
  c = ' ' ∨ c = '\t' ∨ c = '\n' ∨ c = '\r' ∨ c.toNat = 11 ∨ c.toNat = 12

/-- JS String.prototype.trim. -/
def jsTrim (s : String) : String :=
  String.mk (((s.data.dropWhile isJsWhitespace).reverse.dropWhile isJsWhitespace).reverse)

/-- JS String.prototype.toLowerCase (per-character model). -/
def jsLower (s : String) : String :=
  String.mk (s.data.map Char.toLower)

/-- JS String.prototype.toUpperCase (per-character model). -/
def jsUpper (s : String) : String :=
  String.mk (s.data.map Char.toUpper)

/-- Decimal digits of a character list read as a natural number. -/
def digitsToNat (l : List Char) : Nat :=
  l.foldl (fun acc c => 10 * acc + (c.toNat - 48)) 0

/-- The canonical-array-index test of the ECMAScript own-key order: a key is an
array index when it is the canonical decimal form of an integer below 2^32-1. -/
def canonicalIndexKey? (s : String) : Option Nat :=
  if s.data ≠ [] ∧ s.data.all Char.isDigit then
    let n := digitsToNat s.data
    if toString n = s ∧ n < 4294967295 then some n else none
  else none

/-- JS parseInt with radix 10: leading whitespace, optional sign, longest
digit run; none when no digit is found. -/
def jsParseInt (s : String) : Option Int :=
  let l := s.data.dropWhile isJsWhitespace
  let signed : Bool × List Char :=
    match l with
    | c :: rest => if c = '-' then (true, rest) else if c = '+' then (false, rest) else (false, l)
    | [] => (false, [])
  let ds := signed.2.takeWhile Char.isDigit
  if ds = [] then none
  else some (if signed.1 then -(digitsToNat ds : Int) else (digitsToNat ds : Int))

/-- The quote-stripping replace of normalizeScenarioLabelList: remove one
leading and one trailing quote character (single or double). -/
def stripOuterQuotes (s : String) : String :=
  let isQuote : Char → Bool := fun c => c.toNat = 39 ∨ c.toNat = 34
  let l1 :=
    match s.data with
    | c :: rest => if isQuote c then rest else c :: rest
    | [] => []
  let l2 :=
    match l1.reverse with
    | c :: rest => if isQuote c then rest.reverse else (c :: rest).reverse
    | [] => []
  String.mk l2

/-- Array.prototype.join with a comma separator over strings. -/
def joinComma : List String → String
  | [] => ""
  | [x] => x
  | x :: y :: xs => x ++ "," ++ joinComma (y :: xs)

/- ---------------- JSValue basics ---------------- -/

namespace JSValue

/-- JS truthiness. -/
def truthy : JSValue → Bool
  | .undefined => false
  | .null => false
  | .bool b => b
  | .num n => n != 0
  | .str s => match s.data with | [] => false | _ => true
  | .arr _ => true
  | .obj _ => true

/-- The values for which the JS loose comparison (x == null) holds. -/
def nullish : JSValue → Bool
  | .undefined => true
  | .null => true
  | _ => false

/-- Array.isArray. -/
def isArrayV : JSValue → Bool
  | .arr _ => true
  | _ => false

end JSValue

open JSValue

/-- JS (a || b). -/
def jsOr (a b : JSValue) : JSValue :=
  if a.truthy then a else b

mutual
/-- JS String(v): arrays join their elements with commas (null/undefined
elements become empty), objects print as [object Object]. -/
def jsToString : JSValue → String
  | .undefined => "undefined"
  | .null => "null"
  | .bool true => "true"
  | .bool false => "false"
  | .num n => toString n
  | .str s => s
  | .obj _ => "[object Object]"
  | .arr items => jsArrToString items

/-- Array.prototype.toString: elements joined with commas, null and
undefined elements rendered empty. -/
def jsArrToString : List JSValue → String
  | [] => ""
  | [x] => (match x with | .null => "" | .undefined => "" | v => jsToString v)
  | x :: y :: xs =>
      (match x with | .null => "" | .undefined => "" | v => jsToString v) ++ "," ++
        jsArrToString (y :: xs)
end

/-- First binding of a key in an object body (JS objects have unique keys). -/
def lookupM (m : ObjMap) (k : String) : Option JSValue :=
  match m with
  | [] => none
  | (k', v) :: rest => if k' = k then some v else lookupM rest k

/-- JS property assignment: an existing key keeps its position, a new key is
appended. -/
def setFieldM (m : ObjMap) (k : String) (v : JSValue) : ObjMap :=
  match m with
  | [] => [(k, v)]
  | (k', v') :: rest => if k' = k then (k, v) :: rest else (k', v') :: setFieldM rest k v

/-- Stable insertion of an indexed entry in ascending index order. -/
def insertIndexedEntry (p : Nat × String × JSValue) :
    List (Nat × String × JSValue) → List (Nat × String × JSValue)
  | [] => [p]
  | q :: qs => if p.1 < q.1 then p :: q :: qs else q :: insertIndexedEntry p qs

/-- ES2015 own-key ordering of an object body: canonical array-index keys
first in ascending numeric order, then the remaining keys in insertion
order. -/
def jsOwnEntries (fields : ObjMap) : ObjMap :=
  let indexed := fields.filterMap fun p =>
    match canonicalIndexKey? p.1 with
    | some n => some (n, p.1, p.2)
    | none => none
  let sorted := indexed.foldl (fun acc q => insertIndexedEntry q acc) []
  sorted.map (fun q => (q.2.1, q.2.2)) ++
    fields.filter fun p => (canonicalIndexKey? p.1).isNone

/-- Own enumerable entries of any JS value: objects by ES own-key order,
strings and arrays by character or element index, primitives have none. -/
def jsOwnEntriesV : JSValue → ObjMap
  | .obj fields => jsOwnEntries fields
  | .str s => (s.data.enum.map fun p => (toString p.1, JSValue.str (String.mk [p.2])))
  | .arr items => (items.enum.map fun p => (toString p.1, p.2))
  | _ => []

/-- Object.keys. -/
def jsOwnKeysV (v : JSValue) : List String :=
  (jsOwnEntriesV v).map Prod.fst

/-- JS member access v[k] (undefined when absent; string and array values
expose their index properties). -/
def getField (v : JSValue) (k : String) : JSValue :=
  match v with
  | .obj m => (lookupM m k).getD .undefined
  | .str s =>
      match canonicalIndexKey? k with
      | some n => match s.data.get? n with
                  | some c => .str (String.mk [c])
                  | none => .undefined
      | none => .undefined
  | .arr items =>
      match canonicalIndexKey? k with
      | some n => (items.get? n).getD .undefined
      | none => .undefined
  | _ => .undefined

/-- Object.prototype.hasOwnProperty.call(v, k). -/
def hasOwnField (v : JSValue) (k : String) : Bool :=
  match v with
  | .obj m => (lookupM m k).isSome
  | .arr items =>
      match canonicalIndexKey? k with
      | some n => n < items.length
      | none => false
  | _ => false

/-- Object spread {...acc, ...v}: fold the own entries of v over acc. -/
def spreadIntoM (m : ObjMap) (v : JSValue) : ObjMap :=
  (jsOwnEntriesV v).foldl (fun acc p => setFieldM acc p.1 p.2) m

/-- Number of top-level fields of an object value (observer used to separate
concrete normalizer outputs). -/
def numFieldsTop : JSValue → Nat
  | .obj m => m.length
  | _ => 0

/-- Top-level field lookup of an object value. -/
def lookupTop (v : JSValue) (k : String) : Option JSValue :=
  match v with
  | .obj m => lookupM m k
  | _ => none

/- ---------------- message normalization (src/app.js 408-505) ---------------- -/

/-- getCompanyInitial: first character of the trimmed string form of the
company name, uppercased; empty when the name trims to nothing. -/
def getCompanyInitial (companyName : JSValue) : String :=
  let name := jsTrim (jsToString (jsOr companyName (.str "")))
  match name.data with
  | [] => ""
  | c :: _ => String.mk [c.toUpper]

/-- mapMessageTypeToRole: raw message-type vocabulary to role. -/
def mapMessageTypeToRole (messageType : String) : String :=
  let type := jsLower (jsTrim messageType)
  if type = "subscriber" ∨ type = "customer" ∨ type = "user" then "customer"
  else if type = "agent" then "agent"
  else if type = "system" ∨ type = "template" ∨ type = "escalation" then "system"
  else ""

/-- One item of normalizeMessageMedia: strings become {url, type:""} when
non-blank; objects resolve the url and type through their legacy aliases;
anything else is dropped. -/
def normalizeMediaItem (item : JSValue) : Option JSValue :=
  match item with
  | .str s =>
      let url := jsTrim s
      if url = "" then none else some (.obj [("url", .str url), ("type", .str "")])
  | .obj _ | .arr _ =>
      let rawUrl := jsOr (jsOr (jsOr (jsOr (getField item "url") (getField item "media_url"))
        (getField item "src")) (getField item "link")) (.str "")
      let url := jsTrim (jsToString (jsOr rawUrl (.str "")))
      if url = "" then none
      else
        let type := jsLower (jsTrim (jsToString (jsOr (jsOr (jsOr (jsOr (jsOr
          (getField item "type") (getField item "media_type")) (getField item "mime_type"))
          (getField item "mimeType")) (getField item "content_type")) (.str ""))))
        some (.obj [("url", .str url), ("type", .str type)])
  | _ => none

/-- normalizeMessageMedia: non-arrays become empty; array items are mapped
through normalizeMediaItem and the dropped ones filtered out. -/
def normalizeMessageMedia (media : JSValue) : List JSValue :=
  match media with
  | .arr items => items.filterMap normalizeMediaItem
  | _ => []

/-- The message type computed by normalizeConversationMessage:
String(message.message_type or message.messageType or ""), trimmed and
lowercased. -/
def rawMessageType (message : JSValue) : String :=
  jsLower (jsTrim (jsToString (jsOr (jsOr (getField message "message_type")
    (getField message "messageType")) (.str ""))))

/-- The explicit role string of a message: String(message.role or ""),
trimmed and lowercased. -/
def messageExplicitRole (message : JSValue) : String :=
  jsLower (jsTrim (jsToString (jsOr (getField message "role") (.str ""))))

/-- The content value picked by normalizeConversationMessage: content when it
is not loosely null, else message_text. -/
def messageContentValue (message : JSValue) : JSValue :=
  if (getField message "content").nullish then getField message "message_text"
  else getField message "content"

/-- The content string of a message: kept as-is when a string, empty when
loosely null, else String(...) coerced. -/
def messageContentString (message : JSValue) : String :=
  match messageContentValue message with
  | .str s => s
  | v => if v.nullish then "" else jsToString v

/-- normalizeConversationMessage: resolves the role (explicit role first,
else mapped from the message type), drops messages with no resolvable role
and non-event messages with blank content, and rebuilds the message with
normalized media, dateTime and id fields. -/
def normalizeConversationMessage (message : JSValue) : Option JSValue :=
  match message with
  | .arr _ | .obj _ =>
      let messageType := rawMessageType message
      let explicitRole := messageExplicitRole message
      let mappedRole := mapMessageTypeToRole messageType
      let role := if explicitRole = "" then mappedRole else explicitRole
      if role = "" then none
      else
        let content := messageContentString message
        let isEventSystemMessage := messageType = "template" ∨ messageType = "escalation"
        if jsTrim content = "" ∧ ¬ isEventSystemMessage then none
        else
          let fields : ObjMap := [("role", .str role), ("content", .str content)]
          let fields := if messageType = "" then fields else fields ++ [("messageType", .str messageType)]
          let media := normalizeMessageMedia (jsOr (getField message "media") (getField message "message_media"))
          let fields := if media.isEmpty then fields else fields ++ [("media", .arr media)]
          let dateTimeRaw :=
            if ¬ (getField message "dateTime").nullish then getField message "dateTime"
            else if ¬ (getField message "date_time").nullish then getField message "date_time"
            else getField message "timestamp"
          let dateTime :=
            match dateTimeRaw with
            | .str s => jsTrim s
            | v => if v.nullish then "" else jsTrim (jsToString v)
          let fields := if dateTime = "" then fields else fields ++ [("dateTime", .str dateTime)]
          let id := jsTrim (jsToString (jsOr (jsOr (getField message "id") (getField message "message_id")) (.str "")))
          let fields := if id = "" then fields else fields ++ [("id", .str id)]
          some (.obj fields)
  | _ => none

/-- isConversationMessageObject: a truthy object carrying any of the four
message-identifying own properties. -/
def isConversationMessageObject (item : JSValue) : Bool :=
  match item with
  | .obj _ | .arr _ =>
      hasOwnField item "message_text" || hasOwnField item "message_type" ||
        hasOwnField item "content" || hasOwnField item "role"
  | _ => false

/-- isMessageArray: a non-empty array whose every element looks like a single
message. -/
def isMessageArray (value : JSValue) : Bool :=
  match value with
  | .arr items => !items.isEmpty && items.all isConversationMessageObject
  | _ => false

/-- normalizeConversationList: map the messages through
normalizeConversationMessage and drop the nulls. -/
def normalizeConversationList (list : JSValue) : List JSValue :=
  match list with
  | .arr items => items.filterMap normalizeConversationMessage
  | _ => []

/- ------------- scenario records and the normalizer (src/app.js 507-606) ------------- -/

/-- Strip a known character-list head; none when it does not match. -/
def dropCharsHead : List Char → List Char → Option (List Char)
  | [], l => some l
  | _ :: _, [] => none
  | p :: ps, c :: cs => if c = p then dropCharsHead ps cs else none

/-- The role of a legacy flat message key: SystemMessage<digits>,
customerMessage<optional digits>, AgentMessage<digits>, all matched
case-insensitively against the whole key. -/
def legacyMessageRole (key : String) : Option String :=
  let l := (jsLower key).data
  match dropCharsHead "systemmessage".data l with
  | some rest => if rest ≠ [] ∧ rest.all Char.isDigit then some "system" else none
  | none =>
    match dropCharsHead "customermessage".data l with
    | some rest => if rest.all Char.isDigit then some "customer" else none
    | none =>
      match dropCharsHead "agentmessage".data l with
      | some rest => if rest ≠ [] ∧ rest.all Char.isDigit then some "agent" else none
      | none => none

/-- Array.isArray(v) && v.length. -/
def isNonEmptyArrayV : JSValue → Bool
  | .arr items => !items.isEmpty
  | _ => false

/-- buildConversationFromScenario: a non-empty array is itself the
conversation; otherwise an explicit conversation array wins, then an explicit
messages array, then the legacy flat SystemMessage/customerMessage/AgentMessage
string fields in own-key order; the result is message-normalized. -/
def buildConversationFromScenario (scenario : JSValue) : List JSValue :=
  if ¬ scenario.truthy then []
  else if isNonEmptyArrayV scenario then normalizeConversationList scenario
  else if isNonEmptyArrayV (getField scenario "conversation") then
    normalizeConversationList (getField scenario "conversation")
  else if isNonEmptyArrayV (getField scenario "messages") then
    normalizeConversationList (getField scenario "messages")
  else
    let messages := (jsOwnEntriesV scenario).filterMap fun p =>
      match p.2 with
      | .str s =>
          if s.data = [] then none
          else (legacyMessageRole p.1).map fun role =>
            JSValue.obj [("role", .str role), ("content", .str s)]
      | _ => none
    normalizeConversationList (.arr messages)

/-- The merged-over-defaults object of normalizeScenarioRecord: shallow
spread of defaults then the scenario, with guidelines, notes and rightPanel
merged key-by-key. -/
def mergeScenarioWithDefaults (defaults scenarioObject : JSValue) : ObjMap :=
  let scenarioNotes := jsOr (jsOr (getField scenarioObject "notes") (getField scenarioObject "guidelines")) (.obj [])
  let defaultNotes := jsOr (jsOr (getField defaults "notes") (getField defaults "guidelines")) (.obj [])
  let base := spreadIntoM (spreadIntoM [] defaults) scenarioObject
  let guidelines := JSValue.obj (spreadIntoM (spreadIntoM []
    (jsOr (getField defaults "guidelines") (.obj []))) (jsOr (getField scenarioObject "guidelines") (.obj [])))
  let notes := JSValue.obj (spreadIntoM (spreadIntoM [] defaultNotes) scenarioNotes)
  let rightPanel := JSValue.obj (spreadIntoM (spreadIntoM []
    (jsOr (getField defaults "rightPanel") (.obj []))) (jsOr (getField scenarioObject "rightPanel") (.obj [])))
  setFieldM (setFieldM (setFieldM base "guidelines" guidelines) "notes" notes) "rightPanel" rightPanel

/-- The scenario-object wrapping of normalizeScenarioRecord: bare arrays
become a conversation wrapper, non-objects become the empty object. -/
def scenarioObjectOf (rawScenario : JSValue) : JSValue :=
  match rawScenario with
  | .arr items => .obj [("conversation", .arr items)]
  | .obj m => .obj m
  | _ => .obj []

/-- The preloaded conversation of normalizeScenarioRecord (src/app.js
531-536): an explicit conversation array, else an explicit messages array,
else nothing. -/
def preloadedConversationOf (scenarioObject : JSValue) : List JSValue :=
  match getField scenarioObject "conversation" with
  | .arr items => items
  | _ =>
    match getField scenarioObject "messages" with
    | .arr items => items
    | _ => []

/-- The customerMessage derivation of normalizeScenarioRecord (src/app.js
539-542): when customerMessage is falsy, take the content of the first
customer message with truthy content. -/
def withCustomerMessage (m5 : ObjMap) (conversation : List JSValue) : ObjMap :=
  if (getField (.obj m5) "customerMessage").truthy then m5
  else
    match conversation.find? (fun msg => msg.truthy &&
      (match getField msg "role" with | .str s => s == "customer" | _ => false) &&
      (getField msg "content").truthy) with
    | some msg => setFieldM m5 "customerMessage" (getField msg "content")
    | none => m5

/-- The agentName default of normalizeScenarioRecord (src/app.js 543). -/
def withAgentNameDefault (m6 : ObjMap) : ObjMap :=
  if (getField (.obj m6) "agentName").truthy then m6 else setFieldM m6 "agentName" (.str "")

/-- normalizeScenarioRecord up to the agentName default (src/app.js 508-543):
merge over defaults, install the preloaded conversation, rebuild the
conversation, derive customerMessage, default agentName. -/
def scenarioRecordBase (rawScenario defaults : JSValue) : ObjMap :=
  let scenarioObject := scenarioObjectOf rawScenario
  let m3 := mergeScenarioWithDefaults defaults scenarioObject
  let preloadedConversation := preloadedConversationOf scenarioObject
  let m4 := if preloadedConversation.isEmpty then m3
            else setFieldM m3 "conversation" (.arr preloadedConversation)
  let conversation := buildConversationFromScenario (.obj m4)
  let m5 := setFieldM m4 "conversation" (.arr conversation)
  withAgentNameDefault (withCustomerMessage m5 conversation)

/-- The tail of normalizeScenarioRecord (src/app.js 544-546): default the
companyName to "Scenario {key}" when falsy and derive agentInitial from it. -/
def scenarioRecordWithIdentity (m7 : ObjMap) (scenarioKey : String) : JSValue :=
  let m8 := if (getField (.obj m7) "companyName").truthy then m7
            else setFieldM m7 "companyName" (.str ("Scenario " ++ scenarioKey))
  .obj (setFieldM m8 "agentInitial" (.str (getCompanyInitial (getField (.obj m8) "companyName"))))

/-- normalizeScenarioRecord: wrap bare arrays as a conversation, merge over
defaults, rebuild the conversation, derive customerMessage, default agentName,
companyName and derive agentInitial. -/
def normalizeScenarioRecord (rawScenario defaults : JSValue) (scenarioKey : String) : JSValue :=
  scenarioRecordWithIdentity (scenarioRecordBase rawScenario defaults) scenarioKey

/-- The array branch of coerceScenariosPayloadToMap: a message array becomes
one scenario keyed "1" whose conversation is that array; any other array is
keyed positionally, "1"-based. -/
def coerceArrayToScenarioMap (asArray : List JSValue) (defaults : JSValue) : ObjMap :=
  if isMessageArray (.arr asArray) then
    [("1", normalizeScenarioRecord (.obj [("conversation", .arr asArray)]) defaults "1")]
  else
    asArray.enum.map fun p =>
      let key := toString (p.1 + 1)
      (key, normalizeScenarioRecord p.2 defaults key)

/-- coerceScenariosPayloadToMap: an object with a non-array truthy scenarios
member is normalized key by key; otherwise a bare array, or the scenarios
array of an object, goes through the array branch; anything else yields the
empty map. -/
def coerceScenariosPayloadToMap (data : JSValue) : JSValue :=
  let defaults : JSValue :=
    match data with
    | .obj _ => jsOr (getField data "defaults") (.obj [])
    | _ => .obj []
  match data with
  | .obj _ =>
      let scenariosField := getField data "scenarios"
      if scenariosField.truthy && !scenariosField.isArrayV then
        .obj ((jsOwnKeysV scenariosField).foldl
          (fun acc key => setFieldM acc key (normalizeScenarioRecord (getField scenariosField key) defaults key)) [])
      else
        match scenariosField with
        | .arr items => .obj (coerceArrayToScenarioMap items defaults)
        | _ => .obj []
  | .arr items => .obj (coerceArrayToScenarioMap items defaults)
  | _ => .obj []

/- ------------- scenario label lists (src/app.js 617-640) and the offline
   data editor dedup (src/unnamed/part_000 521-535) ------------- -/

/-- The per-item pipeline of normalizeScenarioLabelList for array and object
inputs: String(item or "").trim(), drop empties and "[object Object]", strip
one outer quote pair, drop empties again. -/
def labelPipeline (items : List JSValue) : List String :=
  ((((items.map fun item => jsTrim (jsToString (jsOr item (.str "")))).filter
      fun s => s ≠ "" && s ≠ "[object Object]").map stripOuterQuotes).filter
      fun s => s ≠ "")

/-- The separator class of normalizeScenarioLabelList text splitting. -/
def isLabelSeparator (c : Char) : Bool :=
  c = '\n' ∨ c = ',' ∨ c = '|' ∨ c = ';'

/-- normalizeScenarioLabelList: arrays and objects run their values through
the label pipeline; null and undefined yield the empty list; any other value
is stringified and split on newline, comma, pipe or semicolon. The console
version performs no deduplication. -/
def normalizeScenarioLabelList (value : JSValue) : List String :=
  match value with
  | .arr items => labelPipeline items
  | .obj _ => labelPipeline ((jsOwnEntriesV value).map Prod.snd)
  | .null => []
  | .undefined => []
  | v =>
      let text := jsTrim (jsToString v)
      if text = "" then []
      else ((text.split isLabelSeparator).map fun item =>
        stripOuterQuotes (jsTrim item)).filter fun s => s ≠ ""

/-- The dedup loop of the offline data editor Get-UniqueTrimmedStringArray
(src/unnamed/part_000), applied to a string array: trim each item, skip
blanks, skip items whose lowercased form was already seen, keep first
occurrences in order. -/
def getUniqueTrimmedAux (seen : List String) : List String → List String
  | [] => []
  | item :: rest =>
      let txt := jsTrim item
      if txt = "" then getUniqueTrimmedAux seen rest
      else if jsLower txt ∈ seen then getUniqueTrimmedAux seen rest
      else txt :: getUniqueTrimmedAux (jsLower txt :: seen) rest

/-- Get-UniqueTrimmedStringArray of the offline data editor on a string
array: case-insensitive dedup key, first occurrence kept, order preserved. -/
def getUniqueTrimmedStringArray (items : List String) : List String :=
  getUniqueTrimmedAux [] items

/- ------------- navigation (src/app.js 1723-1773, 69-95) ------------- -/

/-- The shared target-index rule of navigateAssignmentQueue and
navigateScenarioList: (currentIndex + direction + length) mod length when the
current item was found, else the first item going forward and the last going
backward. -/
def navTargetIndex (length : Nat) (currentIndex : Option Nat) (direction : Int) : Nat :=
  match currentIndex with
  | some i => (((i : Int) + direction + (length : Int)) % (length : Int)).toNat
  | none => if direction > 0 then 0 else length - 1

/-- navigateAssignmentQueue on an already-loaded queue: none when the queue
is empty or the targeted item has no navigable edit_url, else the url of the
item at the wrapped target index. -/
def navigateAssignmentQueue (queue : List JSValue) (currentId : String) (direction : Int) :
    Option String :=
  if queue.isEmpty then none
  else
    let currentIndex :=
      if currentId = "" then none
      else queue.findIdx? fun item => jsToString (jsOr (getField item "assignment_id") (.str "")) = currentId
    let targetIndex := navTargetIndex queue.length currentIndex direction
    match queue.get? targetIndex with
    | none => none
    | some target =>
        let url := if target.truthy && (getField target "edit_url").truthy
                   then jsToString (getField target "edit_url") else ""
        if url = "" then none else some url

/-- The navigable key list of navigateScenarioList: keys parsed with
parseInt base 10, NaN dropped, sorted ascending, stringified back. -/
def scenarioNavKeys (dataKeys : List String) : List String :=
  ((List.insertionSort (fun a b : Int => a ≤ b) (dataKeys.filterMap jsParseInt)).map
    fun n => toString n)

/-- The target scenario key picked by navigateScenarioList before the access
gate: the same circular-wrap and fallback rule over the ascending numeric key
list; none when the list is empty. -/
def scenarioListTarget (dataKeys : List String) (current : String) (direction : Int) :
    Option String :=
  let keys := scenarioNavKeys dataKeys
  if keys.isEmpty then none
  else
    let currentIndex := keys.findIdx? fun k => k = current
    keys.get? (navTargetIndex keys.length currentIndex direction)

/-- isCsvScenarioMode of the source: constantly false. -/
def isCsvScenarioMode : Bool := false

/-- canAccessScenario: admin or CSV mode pass, otherwise the requested key
must parse to exactly the currently unlocked scenario number. -/
def canAccessScenario (admin : Bool) (unlocked : Int) (scenarioNumber : String) : Bool :=
  admin || isCsvScenarioMode || jsParseInt scenarioNumber == some unlocked

/-- navigateScenarioList: the wrapped target key, dropped silently when the
unlock gate denies access. -/
def navigateScenarioList (dataKeys : List String) (current : String) (direction : Int)
    (admin : Bool) (unlocked : Int) : Option String :=
  match scenarioListTarget dataKeys current direction with
  | none => none
  | some target =>
      if !isCsvScenarioMode && !canAccessScenario admin unlocked target then none
      else some target

/-- The outcome of one next/previous action. -/
inductive NavOutcome where
  | toQueueUrl (url : String)
  | toScenario (key : String)
  | stay

/-- navigateConversation: try the assignment queue first, fall through to the
scenario-key list when it does not move. -/
def navigateConversation (queue : List JSValue) (currentId : String) (dataKeys : List String)
    (current : String) (direction : Int) (admin : Bool) (unlocked : Int) : NavOutcome :=
  match navigateAssignmentQueue queue currentId direction with
  | some url => .toQueueUrl url
  | none =>
      match navigateScenarioList dataKeys current direction admin unlocked with
      | some key => .toScenario key
      | none => .stay

/- ------------- evaluation form (src/app.js 2277-2390) ------------- -/

/-- CATEGORY_LABELS: full ordered label list per category. -/
def CATEGORY_LABELS (categoryKey : String) : List String :=
  if categoryKey = "issue_identification" then ["Intent Identified", "Necessary Reply"]
  else if categoryKey = "proper_resolution" then
    ["Efficient Troubleshooting", "Correct Escalation", "Double Text", "Partial Reply"]
  else if categoryKey = "product_sales" then
    ["General Recommendation", "Discount Upsell", "Restock Question", "Upsell"]
  else if categoryKey = "accuracy" then
    ["Credible Source", "Promo - Active", "Promo - Correct", "Promo - Hallucinated",
     "Link - Broken", "Link - Correct Page", "Link - Correct Region", "Link - Correct Website",
     "Link - Filtered", "Link - Relevant Item"]
  else if categoryKey = "workflow" then
    ["Checkout Page", "Company Profile", "Conversation", "Customer Profile", "Notes",
     "Product Information", "Promo Notes", "Templates", "Website"]
  else if categoryKey = "clarity" then
    ["Correct Grammar", "No Typos", "No Repetition", "Understandable Message"]
  else if categoryKey = "tone" then
    ["Preferred tone followed", "Personalized", "Empathetic"]
  else []

/-- VALUE_TO_LABEL: slug-to-label pairs per category. -/
def valueToLabelPairs (categoryKey : String) : List (String × String) :=
  if categoryKey = "issue_identification" then
    [("intent_identified", "Intent Identified"), ("necessary_reply", "Necessary Reply")]
  else if categoryKey = "proper_resolution" then
    [("efficient_troubleshooting", "Efficient Troubleshooting"), ("correct_escalation", "Correct Escalation"),
     ("double_text", "Double Text"), ("partial_reply", "Partial Reply")]
  else if categoryKey = "product_sales" then
    [("general_recommendation", "General Recommendation"), ("discount_upsell", "Discount Upsell"),
     ("restock_question", "Restock Question"), ("upsell", "Upsell")]
  else if categoryKey = "accuracy" then
    [("credible_source", "Credible Source"), ("promo_active", "Promo - Active"),
     ("promo_correct", "Promo - Correct"), ("promo_hallucinated", "Promo - Hallucinated"),
     ("link_broken", "Link - Broken"), ("link_correct_page", "Link - Correct Page"),
     ("link_correct_region", "Link - Correct Region"), ("link_correct_website", "Link - Correct Website"),
     ("link_filtered", "Link - Filtered"), ("link_relevant_item", "Link - Relevant Item")]
  else if categoryKey = "workflow" then
    [("checkout_page", "Checkout Page"), ("company_profile", "Company Profile"),
     ("conversation", "Conversation"), ("customer_profile", "Customer Profile"),
     ("notes", "Notes"), ("product_information", "Product Information"),
     ("promo_notes", "Promo Notes"), ("templates", "Templates"), ("website", "Website")]
  else if categoryKey = "clarity" then
    [("correct_grammar", "Correct Grammar"), ("no_typos", "No Typos"),
     ("no_repetition", "No Repetition"), ("understandable_message", "Understandable Message")]
  else if categoryKey = "tone" then
    [("preferred_tone_followed", "Preferred tone followed"), ("personalized", "Personalized"),
     ("empathetic", "Empathetic")]
  else []

/-- The slug-to-label lookup of one category. -/
def valueToLabel (categoryKey slug : String) : Option String :=
  ((valueToLabelPairs categoryKey).find? fun p => p.1 = slug).map Prod.snd

/-- buildCategoryCell: map the selected slugs to labels, keep the full label
list filtered to the selected ones (fixed display order), join with commas. -/
def buildCategoryCell (categoryKey : String) (selected : List String) : String :=
  let full := CATEGORY_LABELS categoryKey
  let selectedLabels := selected.filterMap fun v => valueToLabel categoryKey v
  joinComma (full.filter fun label => decide (label ∈ selectedLabels))

/-- The seven fixed checkbox categories. -/
def checkboxCategories : List String :=
  ["issue_identification", "proper_resolution", "product_sales", "accuracy",
   "workflow", "clarity", "tone"]

/- ------------- assignment context and submission (src/app.js 33-62, 2277-2390) ------------- -/

/-- The assignment context built by loadAssignmentContextFromUrl. -/
structure AssignmentContext where
  assignment_id : JSValue
  send_id : JSValue
  role : String
  mode : String
  token : String
  status : JSValue
  scenarioKey : String
  form_state_json : JSValue
  internal_note : JSValue

/-- The context construction of loadAssignmentContextFromUrl: the role is
viewer exactly when the fetched assignment role is the string viewer, editor
otherwise; the fallback fields default through JS or-chains. -/
def buildAssignmentContext (assignment : JSValue) (mode token scenarioKey : String) :
    AssignmentContext :=
  { assignment_id := getField assignment "assignment_id"
    send_id := getField assignment "send_id"
    role := match getField assignment "role" with
            | .str s => if s = "viewer" then "viewer" else "editor"
            | _ => "editor"
    mode := mode
    token := token
    status := jsOr (getField assignment "status") (.str "")
    scenarioKey := scenarioKey
    form_state_json := jsOr (getField assignment "form_state_json") (.str "")
    internal_note := jsOr (getField assignment "internal_note") (.str "") }

/-- What the submit handler of customForm does before the network call. -/
inductive SubmitOutcome where
  | rejectedViewOnly
  | validationFailed
  | submitted (categoryCells : List (String × String)) (notes : String)

/-- Whether an outcome issues the network request. -/
def issuesNetworkRequest : SubmitOutcome → Bool
  | .submitted _ _ => true
  | _ => false

/-- The customForm submit handler up to the fetch: reject outright when an
active assignment context is not editor-role or is in view mode, then fail
validation on blank notes, else build the per-category cells and submit. -/
def customFormSubmit (assignmentContext : Option AssignmentContext)
    (selectedByCategory : String → List String) (notesVal : String) : SubmitOutcome :=
  let gated : Bool :=
    match assignmentContext with
    | some ctx => (ctx.role != "editor") || (ctx.mode == "view")
    | none => false
  if gated then .rejectedViewOnly
  else if jsTrim notesVal = "" then .validationFailed
  else .submitted (checkboxCategories.map fun c => (c, buildCategoryCell c (selectedByCategory c))) notesVal

/- ---------------- basic lemmas about the object model ---------------- -/

theorem lookupM_setFieldM_self (m : ObjMap) (k : String) (v : JSValue) :
    lookupM (setFieldM m k v) k = some v := by
  induction m with
  | nil => simp [setFieldM, lookupM]
  | cons p rest ih =>
      by_cases h : p.1 = k
      · simp [setFieldM, h, lookupM]
      · simp [setFieldM, h, lookupM, ih]

theorem lookupM_setFieldM_ne (m : ObjMap) (k : String) (v : JSValue) (k' : String)
    (h : k' ≠ k) : lookupM (setFieldM m k v) k' = lookupM m k' := by
  have hne : k ≠ k' := fun hh => h hh.symm
  induction m with
  | nil => simp [setFieldM, lookupM, hne]
  | cons p rest ih =>
      by_cases hk : p.1 = k
      · have hp : p.1 ≠ k' := hk.symm ▸ hne
        simp [setFieldM, hk, lookupM, hne, hp]
      · by_cases hk' : p.1 = k'
        · simp [setFieldM, hk, lookupM, hk', h]
        · simp [setFieldM, hk, lookupM, hk', ih]

theorem getField_obj (m : ObjMap) (k : String) :
    getField (.obj m) k = (lookupM m k).getD .undefined := rfl

theorem truthy_str_iff (s : String) : (JSValue.str s).truthy = true ↔ s.data ≠ [] := by
  cases h : s.data <;> simp [JSValue.truthy, h]

theorem scenario_prefix_truthy (key : String) :
    (JSValue.str ("Scenario " ++ key)).truthy = true := by
  cases key with
  | mk data => rfl

/- ---------------- C7: category cell order ---------------- -/

/-- C7. For every evaluation-form category the constructed cell joins the
canonical labels of the selected slugs in the fixed display order of the category,
independent of selection order; for product_sales the selection
{upsell, general_recommendation} yields "General Recommendation,Upsell" in
both selection orders. -/
theorem categoryCell_fixed_order :
    (∀ (categoryKey : String) (sel sel' : List String),
        (∀ s, s ∈ sel ↔ s ∈ sel') →
        buildCategoryCell categoryKey sel = buildCategoryCell categoryKey sel')
    ∧ buildCategoryCell "product_sales" ["upsell", "general_recommendation"] =
        "General Recommendation,Upsell"
    ∧ buildCategoryCell "product_sales" ["general_recommendation", "upsell"] =
        "General Recommendation,Upsell" := by
  refine ⟨?_, rfl, rfl⟩
  intro categoryKey sel sel' hmem
  simp only [buildCategoryCell]
  congr 1
  apply List.filter_congr
  intro label _
  have hiff : (label ∈ sel.filterMap fun v => valueToLabel categoryKey v) ↔
      (label ∈ sel'.filterMap fun v => valueToLabel categoryKey v) := by
    simp only [List.mem_filterMap]
    constructor
    · rintro ⟨a, ha, hv⟩; exact ⟨a, (hmem a).mp ha, hv⟩
    · rintro ⟨a, ha, hv⟩; exact ⟨a, (hmem a).mpr ha, hv⟩
  exact decide_eq_decide.mpr hiff

/-- C7 witness: the order-independence applied to the two concrete selection
orders of the product_sales example. -/
theorem categoryCell_fixed_order_witness :
    buildCategoryCell "product_sales" ["upsell", "general_recommendation"] =
      buildCategoryCell "product_sales" ["general_recommendation", "upsell"] :=
  categoryCell_fixed_order.1 "product_sales" _ _ (fun s => by
    simp only [List.mem_cons, List.not_mem_nil, or_false]
    exact Or.comm)

/- ---------------- C8: view-only submission gate ---------------- -/

/-- C8. A submission while the active assignment context has role viewer or
mode view is rejected before payload construction, notes validation and the
network call, regardless of form validity. -/
theorem viewOnly_submission_rejected :
    ∀ (ctx : AssignmentContext) (selectedByCategory : String → List String) (notesVal : String),
      ctx.role = "viewer" ∨ ctx.mode = "view" →
        customFormSubmit (some ctx) selectedByCategory notesVal = .rejectedViewOnly
        ∧ issuesNetworkRequest (customFormSubmit (some ctx) selectedByCategory notesVal) = false := by
  intro ctx sel notesVal h
  have hgate : ((ctx.role != "editor") || (ctx.mode == "view")) = true := by
    rcases h with h | h
    · rw [h]; rfl
    · rw [h]; simp
  constructor
  · simp [customFormSubmit, hgate]
  · simp [customFormSubmit, hgate, issuesNetworkRequest]

/-- A concrete viewer-role assignment context. -/
def viewerContextExample : AssignmentContext :=
  ⟨.str "a1", .str "s1", "viewer", "edit", "t", .str "", "1", .str "", .str ""⟩

/-- C8 witness: a viewer-role context with valid notes is still rejected with
no network request. -/
theorem viewOnly_submission_rejected_witness :
    customFormSubmit (some viewerContextExample) (fun _ => ["upsell"]) "valid notes" =
      .rejectedViewOnly
    ∧ issuesNetworkRequest (customFormSubmit (some viewerContextExample)
        (fun _ => ["upsell"]) "valid notes") = false :=
  viewOnly_submission_rejected _ _ _ (Or.inl rfl)

/- ---------------- C10: assignment role coercion ---------------- -/

/-- C10. The context role is always editor or viewer, and it is viewer exactly
when the fetched assignment role is the string "viewer"; every other value is
coerced to editor. -/
theorem assignment_role_coercion :
    ∀ (assignment : JSValue) (mode token scenarioKey : String),
      ((buildAssignmentContext assignment mode token scenarioKey).role = "editor"
        ∨ (buildAssignmentContext assignment mode token scenarioKey).role = "viewer")
      ∧ ((buildAssignmentContext assignment mode token scenarioKey).role = "viewer"
        ↔ getField assignment "role" = .str "viewer") := by
  intro assignment mode token scenarioKey
  simp only [buildAssignmentContext]
  cases hrole : getField assignment "role" with
  | str s =>
      by_cases hs : s = "viewer"
      · subst hs
        refine ⟨Or.inr (by simp), by simp⟩
      · refine ⟨Or.inl (by simp [hs]), ?_⟩
        simp only [hs, if_false]
        constructor
        · intro h; exact absurd h (by simp)
        · intro h; injection h with h'; exact absurd h' hs
  | undefined => exact ⟨Or.inl rfl, by simp⟩
  | null => exact ⟨Or.inl rfl, by simp⟩
  | bool b => exact ⟨Or.inl rfl, by simp⟩
  | num n => exact ⟨Or.inl rfl, by simp⟩
  | arr items => exact ⟨Or.inl rfl, by simp⟩
  | obj fields => exact ⟨Or.inl rfl, by simp⟩

/- ---------------- C4: label-list deduplication ---------------- -/

theorem getUniqueTrimmedAux_lower_notin (l : List String) :
    ∀ (seen : List String) (a : String), a ∈ getUniqueTrimmedAux seen l → jsLower a ∉ seen := by
  induction l with
  | nil => intro seen a h; simp [getUniqueTrimmedAux] at h
  | cons x xs ih =>
      intro seen a h
      simp only [getUniqueTrimmedAux] at h
      by_cases h1 : jsTrim x = ""
      · rw [if_pos h1] at h; exact ih seen a h
      · rw [if_neg h1] at h
        by_cases h2 : jsLower (jsTrim x) ∈ seen
        · rw [if_pos h2] at h; exact ih seen a h
        · rw [if_neg h2] at h
          rcases List.mem_cons.mp h with rfl | hmem
          · exact h2
          · intro hc
            exact ih _ a hmem (List.mem_cons_of_mem _ hc)

theorem getUniqueTrimmedAux_pairwise (l : List String) :
    ∀ seen : List String,
      (getUniqueTrimmedAux seen l).Pairwise fun a b => jsLower a ≠ jsLower b := by
  induction l with
  | nil => intro seen; simp [getUniqueTrimmedAux]
  | cons x xs ih =>
      intro seen
      simp only [getUniqueTrimmedAux]
      by_cases h1 : jsTrim x = ""
      · rw [if_pos h1]; exact ih seen
      · rw [if_neg h1]
        by_cases h2 : jsLower (jsTrim x) ∈ seen
        · rw [if_pos h2]; exact ih seen
        · rw [if_neg h2]
          refine List.Pairwise.cons ?_ (ih _)
          intro b hb hlow
          exact getUniqueTrimmedAux_lower_notin xs _ b hb
            (by rw [← hlow]; exact List.mem_cons_self _ _)

theorem getUniqueTrimmedAux_sublist (l : List String) :
    ∀ seen : List String, (getUniqueTrimmedAux seen l).Sublist (l.map jsTrim) := by
  induction l with
  | nil => intro seen; simp [getUniqueTrimmedAux]
  | cons x xs ih =>
      intro seen
      simp only [getUniqueTrimmedAux, List.map_cons]
      by_cases h1 : jsTrim x = ""
      · rw [if_pos h1]; exact (ih seen).cons _
      · rw [if_neg h1]
        by_cases h2 : jsLower (jsTrim x) ∈ seen
        · rw [if_pos h2]; exact (ih seen).cons _
        · rw [if_neg h2]; exact (ih _).cons₂ _

/-- C4 counterexample: the console-side normalizeScenarioLabelList keeps two
entries that are equal up to case, so the claimed case-insensitive
deduplication does not hold on the cited console function. -/
theorem console_label_list_not_deduped :
    ¬ (normalizeScenarioLabelList (.arr [.str "Foo", .str "foo"])).Pairwise
        (fun a b => jsLower a ≠ jsLower b) := by
  intro h
  rw [show normalizeScenarioLabelList (.arr [.str "Foo", .str "foo"]) = ["Foo", "foo"]
    from rfl] at h
  exact (List.pairwise_cons.mp h).1 "foo" (by simp) (by decide)

/-- C4 amended. The case-insensitive, order-preserving deduplication is
performed by the offline data editor Get-UniqueTrimmedStringArray: its output
has no two entries equal up to lowercasing and is an order-preserving
subsequence of the trimmed input; the console-side normalizeScenarioLabelList
does not deduplicate. -/
theorem editor_label_dedup (items : List String) :
    (getUniqueTrimmedStringArray items).Pairwise (fun a b => jsLower a ≠ jsLower b)
    ∧ (getUniqueTrimmedStringArray items).Sublist (items.map jsTrim) :=
  ⟨getUniqueTrimmedAux_pairwise items [], getUniqueTrimmedAux_sublist items []⟩

/- ---------------- C5: malformed payloads ---------------- -/

/-- The shapes of the scenarios member the normalizer can extract scenarios
from: an object, an array, or (the exception the claim misses) a truthy
string, whose character indices are enumerated by Object.keys. -/
def scenariosShapeRecognized : JSValue → Bool
  | .obj _ => true
  | .arr _ => true
  | .str s => !s.data.isEmpty
  | _ => false

/-- A malformed payload in the sense of the failure policy: not an array, and
not an object whose scenarios member has a recognized shape. -/
def malformedPayload : JSValue → Bool
  | .arr _ => false
  | .obj m => !scenariosShapeRecognized ((lookupM m "scenarios").getD .undefined)
  | _ => true

/-- C5 counterexample: an object whose scenarios member is a string (neither
a scenarios object nor a scenarios array, hence malformed per the claim) does
not yield the empty map: Object.keys iterates the string character indices
and produces a junk scenario. -/
theorem string_scenarios_not_empty_map :
    coerceScenariosPayloadToMap (.obj [("scenarios", .str "x")]) ≠ .obj []
    ∧ numFieldsTop (coerceScenariosPayloadToMap (.obj [("scenarios", .str "x")])) = 1 := by
  refine ⟨?_, rfl⟩
  intro h
  exact absurd (congrArg numFieldsTop h) (by decide)

/-- C5 amended. Every malformed input, except an object whose scenarios
member is a truthy string, yields the empty map and never throws: the
embedded normalizer is total and returns the empty object for every value
that is not an array and whose scenarios member (when the value is an
object) is missing, null, undefined, boolean, number, or the empty string. -/
theorem malformed_yields_empty_map :
    ∀ data : JSValue, malformedPayload data = true →
      coerceScenariosPayloadToMap data = .obj [] := by
  intro data h
  cases data with
  | undefined => rfl
  | null => rfl
  | bool b => rfl
  | num n => rfl
  | str s => rfl
  | arr items => simp [malformedPayload] at h
  | obj m =>
      have h' : scenariosShapeRecognized (getField (.obj m) "scenarios") = false := by
        simpa [malformedPayload, getField_obj] using h
      simp only [coerceScenariosPayloadToMap]
      cases hsc : getField (.obj m) "scenarios" with
      | obj m2 => rw [hsc] at h'; simp [scenariosShapeRecognized] at h'
      | arr l => rw [hsc] at h'; simp [scenariosShapeRecognized] at h'
      | undefined => rfl
      | null => rfl
      | bool b =>
          cases b
          · rfl
          · simp [JSValue.truthy, JSValue.isArrayV, jsOwnKeysV, jsOwnEntriesV]
      | num n =>
          by_cases hn : n = 0
          · subst hn; rfl
          · simp [JSValue.truthy, JSValue.isArrayV, jsOwnKeysV, jsOwnEntriesV, hn]
      | str s =>
          rw [hsc] at h'
          have hs : s.data = [] := by
            simpa [scenariosShapeRecognized, List.isEmpty_iff] using h'
          simp [JSValue.truthy, hs]

/-- C5 witness: concrete malformed inputs of each kind yield the empty map. -/
theorem malformed_yields_empty_map_witness :
    coerceScenariosPayloadToMap .null = .obj []
    ∧ coerceScenariosPayloadToMap (.str "not a payload") = .obj []
    ∧ coerceScenariosPayloadToMap (.num 7) = .obj []
    ∧ coerceScenariosPayloadToMap (.obj [("scenarios", .null)]) = .obj [] :=
  ⟨malformed_yields_empty_map _ rfl, malformed_yields_empty_map _ rfl,
   malformed_yields_empty_map _ rfl, malformed_yields_empty_map _ rfl⟩

/- ---------------- C3: blank content and event types ---------------- -/

/-- C3. A message whose coerced content is blank survives normalization
exactly when its resolved message type is template or escalation; in
particular a blank agent message is dropped and a blank template message is
retained. -/
theorem blank_content_kept_iff_event :
    (∀ message : JSValue, jsTrim (messageContentString message) = "" →
      ((normalizeConversationMessage message).isSome = true ↔
        rawMessageType message = "template" ∨ rawMessageType message = "escalation"))
    ∧ normalizeConversationMessage
        (.obj [("message_type", .str "agent"), ("content", .str "  ")]) = none
    ∧ (normalizeConversationMessage
        (.obj [("message_type", .str "template"), ("content", .str "")])).isSome = true := by
  refine ⟨?_, rfl, rfl⟩
  intro message hblank
  cases message with
  | undefined =>
      rw [show normalizeConversationMessage .undefined = none from rfl,
          show rawMessageType .undefined = "" from rfl]
      decide
  | null =>
      rw [show normalizeConversationMessage .null = none from rfl,
          show rawMessageType .null = "" from rfl]
      decide
  | bool b =>
      rw [show normalizeConversationMessage (.bool b) = none from rfl,
          show rawMessageType (.bool b) = "" from rfl]
      decide
  | num n =>
      rw [show normalizeConversationMessage (.num n) = none from rfl,
          show rawMessageType (.num n) = "" from rfl]
      decide
  | str s =>
      rw [show normalizeConversationMessage (.str s) = none from rfl,
          show rawMessageType (.str s) = "" from rfl]
      decide
  | arr l =>
      simp only [normalizeConversationMessage]
      by_cases hev : rawMessageType (.arr l) = "template" ∨ rawMessageType (.arr l) = "escalation"
      · have hrole : (if messageExplicitRole (.arr l) = ""
            then mapMessageTypeToRole (rawMessageType (.arr l))
            else messageExplicitRole (.arr l)) ≠ "" := by
          by_cases he : messageExplicitRole (.arr l) = ""
          · rw [if_pos he]
            rcases hev with h | h <;> rw [h] <;> decide
          · rw [if_neg he]; exact he
        rw [if_neg hrole]
        have hcond : ¬ (jsTrim (messageContentString (.arr l)) = ""
            ∧ ¬ (rawMessageType (.arr l) = "template" ∨ rawMessageType (.arr l) = "escalation")) :=
          fun hc => hc.2 hev
        rw [if_neg hcond]
        simp [hev]
      · constructor
        · intro hs
          exfalso
          by_cases hrole : (if messageExplicitRole (.arr l) = ""
              then mapMessageTypeToRole (rawMessageType (.arr l))
              else messageExplicitRole (.arr l)) = ""
          · rw [if_pos hrole] at hs; simp at hs
          · rw [if_neg hrole] at hs
            rw [if_pos ⟨hblank, hev⟩] at hs
            simp at hs
        · intro h; exact absurd h hev
  | obj m =>
      simp only [normalizeConversationMessage]
      by_cases hev : rawMessageType (.obj m) = "template" ∨ rawMessageType (.obj m) = "escalation"
      · have hrole : (if messageExplicitRole (.obj m) = ""
            then mapMessageTypeToRole (rawMessageType (.obj m))
            else messageExplicitRole (.obj m)) ≠ "" := by
          by_cases he : messageExplicitRole (.obj m) = ""
          · rw [if_pos he]
            rcases hev with h | h <;> rw [h] <;> decide
          · rw [if_neg he]; exact he
        rw [if_neg hrole]
        have hcond : ¬ (jsTrim (messageContentString (.obj m)) = ""
            ∧ ¬ (rawMessageType (.obj m) = "template" ∨ rawMessageType (.obj m) = "escalation")) :=
          fun hc => hc.2 hev
        rw [if_neg hcond]
        simp [hev]
      · constructor
        · intro hs
          exfalso
          by_cases hrole : (if messageExplicitRole (.obj m) = ""
              then mapMessageTypeToRole (rawMessageType (.obj m))
              else messageExplicitRole (.obj m)) = ""
          · rw [if_pos hrole] at hs; simp at hs
          · rw [if_neg hrole] at hs
            rw [if_pos ⟨hblank, hev⟩] at hs
            simp at hs
        · intro h; exact absurd h hev

/-- C3 witness: the universal statement applied to a blank template message,
which is retained, and to a blank agent message, which is dropped. -/
theorem blank_content_kept_iff_event_witness :
    (normalizeConversationMessage
      (.obj [("message_type", .str "template"), ("content", .str " ")])).isSome = true
    ∧ (normalizeConversationMessage
      (.obj [("message_type", .str "agent"), ("content", .str " ")])).isSome = false := by
  constructor
  · exact (blank_content_kept_iff_event.1
      (.obj [("message_type", .str "template"), ("content", .str " ")]) rfl).mpr (Or.inl rfl)
  · have h := (blank_content_kept_iff_event.1
      (.obj [("message_type", .str "agent"), ("content", .str " ")]) rfl)
    by_cases hs : (normalizeConversationMessage
        (.obj [("message_type", .str "agent"), ("content", .str " ")])).isSome = true
    · rcases h.mp hs with hc | hc <;> exact absurd hc (by decide)
    · simpa using hs

/- ---------------- C6: circular navigation ---------------- -/

/-- C6. The target-index rule wraps circularly: forward from the last index
targets the first, backward from the first targets the last, the general
formula is (current + direction + n) mod n, a missing current item falls back
to the first item forward and the last item backward; an empty queue does not
move and navigateConversation then falls through to the scenario-list path,
which applies the same rule over the ascending numeric ordering of the
scenario keys. -/
theorem navigation_wraps_and_falls_back :
    (∀ n : Nat, 0 < n → navTargetIndex n (some (n - 1)) 1 = 0)
    ∧ (∀ n : Nat, 0 < n → navTargetIndex n (some 0) (-1) = n - 1)
    ∧ (∀ (n i : Nat) (d : Int),
        navTargetIndex n (some i) d = (((i : Int) + d + (n : Int)) % (n : Int)).toNat)
    ∧ (∀ n : Nat, navTargetIndex n none 1 = 0)
    ∧ (∀ n : Nat, navTargetIndex n none (-1) = n - 1)
    ∧ (∀ (currentId : String) (d : Int), navigateAssignmentQueue [] currentId d = none)
    ∧ (∀ (queue : List JSValue) (currentId : String) (dataKeys : List String)
        (current : String) (d : Int) (admin : Bool) (unlocked : Int),
        navigateAssignmentQueue queue currentId d = none →
          navigateConversation queue currentId dataKeys current d admin unlocked =
            (match navigateScenarioList dataKeys current d admin unlocked with
             | some key => NavOutcome.toScenario key
             | none => NavOutcome.stay))
    ∧ (∀ dataKeys : List String, ∃ ns : List Int,
        List.Sorted (fun a b : Int => a ≤ b) ns
        ∧ scenarioNavKeys dataKeys = ns.map fun n => toString n)
    ∧ (∀ (dataKeys : List String) (current : String) (d : Int),
        scenarioNavKeys dataKeys = [] ∨
          scenarioListTarget dataKeys current d =
            (scenarioNavKeys dataKeys).get? (navTargetIndex (scenarioNavKeys dataKeys).length
              ((scenarioNavKeys dataKeys).findIdx? fun k => k = current) d)) := by
  refine ⟨?_, ?_, ?_, ?_, ?_, ?_, ?_, ?_, ?_⟩
  · intro n hn
    simp only [navTargetIndex]
    have hcast : ((n - 1 : Nat) : Int) = (n : Int) - 1 := by omega
    rw [hcast, show ((n : Int) - 1 + 1 + (n : Int)) = (n : Int) * 2 from by ring,
        Int.mul_emod_right]
    rfl
  · intro n hn
    simp only [navTargetIndex]
    have h1 : (((0 : Nat) : Int) + (-1) + (n : Int)) = (n : Int) - 1 := by push_cast; ring
    rw [h1, Int.emod_eq_of_lt (by omega) (by omega)]
    omega
  · intro n i d; rfl
  · intro n; simp [navTargetIndex]
  · intro n; simp [navTargetIndex]
  · intro currentId d; rfl
  · intro queue currentId dataKeys current d admin unlocked h
    simp only [navigateConversation, h]
  · intro dataKeys
    exact ⟨_, List.sorted_insertionSort _ _, rfl⟩
  · intro dataKeys current d
    by_cases hk : (scenarioNavKeys dataKeys).isEmpty
    · exact Or.inl (List.isEmpty_iff.mp hk)
    · exact Or.inr (by simp [scenarioListTarget, hk])

/-- C6 witness: the wrap rule at a queue of length three, and the empty-queue
fall-through. -/
theorem navigation_wraps_witness :
    navTargetIndex 3 (some 2) 1 = 0
    ∧ navTargetIndex 3 (some 0) (-1) = 2
    ∧ navigateAssignmentQueue [] "a1" 1 = none :=
  ⟨navigation_wraps_and_falls_back.1 3 (by decide),
   navigation_wraps_and_falls_back.2.1 3 (by decide),
   navigation_wraps_and_falls_back.2.2.2.2.2.1 "a1" 1⟩

/- ---------------- C9: companyName and agentInitial ---------------- -/

theorem getField_obj_set_self (m : ObjMap) (k : String) (v : JSValue) :
    getField (.obj (setFieldM m k v)) k = v := by
  simp [getField_obj, lookupM_setFieldM_self]

theorem getField_obj_set_ne (m : ObjMap) (k : String) (v : JSValue) (k' : String)
    (h : k' ≠ k) : getField (.obj (setFieldM m k v)) k' = getField (.obj m) k' := by
  simp [getField_obj, lookupM_setFieldM_ne _ _ _ _ h]

theorem scenarioRecordWithIdentity_companyName (m7 : ObjMap) (key : String) :
    (getField (scenarioRecordWithIdentity m7 key) "companyName").truthy = true
    ∧ getField (scenarioRecordWithIdentity m7 key) "agentInitial" =
        .str (getCompanyInitial (getField (scenarioRecordWithIdentity m7 key) "companyName")) := by
  simp only [scenarioRecordWithIdentity]
  by_cases hc : (getField (.obj m7) "companyName").truthy = true
  · rw [if_pos hc]
    have h1 : getField (.obj (setFieldM m7 "agentInitial"
        (.str (getCompanyInitial (getField (.obj m7) "companyName"))))) "companyName" =
        getField (.obj m7) "companyName" :=
      getField_obj_set_ne _ _ _ _ (by decide)
    refine ⟨by rw [h1]; exact hc, ?_⟩
    rw [h1, getField_obj_set_self]
  · rw [if_neg hc]
    have hset : getField (.obj (setFieldM m7 "companyName"
        (.str ("Scenario " ++ key)))) "companyName" = .str ("Scenario " ++ key) :=
      getField_obj_set_self _ _ _
    have h1 : getField (.obj (setFieldM (setFieldM m7 "companyName" (.str ("Scenario " ++ key)))
        "agentInitial" (.str (getCompanyInitial (getField (.obj (setFieldM m7 "companyName"
          (.str ("Scenario " ++ key)))) "companyName"))))) "companyName" =
        getField (.obj (setFieldM m7 "companyName" (.str ("Scenario " ++ key)))) "companyName" :=
      getField_obj_set_ne _ _ _ _ (by decide)
    refine ⟨?_, ?_⟩
    · rw [h1, hset]; exact scenario_prefix_truthy key
    · rw [h1, getField_obj_set_self]

theorem getCompanyInitial_length (v : JSValue) (hv : v.truthy = true) :
    (jsTrim (jsToString v) ≠ "" → (getCompanyInitial v).length = 1)
    ∧ (jsTrim (jsToString v) = "" → getCompanyInitial v = "") := by
  simp only [getCompanyInitial, jsOr, hv, if_true]
  cases hd : (jsTrim (jsToString v)).data with
  | nil =>
      have hempty : jsTrim (jsToString v) = "" := by
        cases hjs : jsTrim (jsToString v) with
        | mk data =>
            rw [hjs] at hd
            simp only [String.data] at hd
            rw [hd]
      constructor
      · intro hne; exact absurd hempty hne
      · intro _; rfl
  | cons c rest =>
      have hne : jsTrim (jsToString v) ≠ "" := by
        intro hh; rw [hh] at hd; exact List.noConfusion hd
      constructor
      · intro _; rfl
      · intro hh; exact absurd hh hne

/-- C9 counterexample: a whitespace-only companyName is truthy, so it is
kept, but its derived agentInitial is the empty string, not a single
character (and not the uppercased first character of companyName, which
would be the space). -/
theorem whitespace_company_initial_not_single :
    getField (normalizeScenarioRecord (.obj [("companyName", .str " ")]) (.obj []) "7")
      "agentInitial" = .str ""
    ∧ (jsToString (getField (normalizeScenarioRecord (.obj [("companyName", .str " ")])
        (.obj []) "7") "agentInitial")).length ≠ 1 :=
  ⟨rfl, by decide⟩

/-- C9 amended. Every normalized scenario record has a truthy companyName
(defaulted to "Scenario {key}" when the raw scenario provides none) and an
agentInitial equal to the uppercased first character of the trimmed string
form of companyName: a single character whenever companyName has
non-whitespace content, and empty for whitespace-only companyName. -/
theorem scenario_record_identity :
    ∀ (rawScenario defaults : JSValue) (key : String),
      (getField (normalizeScenarioRecord rawScenario defaults key) "companyName").truthy = true
      ∧ getField (normalizeScenarioRecord rawScenario defaults key) "agentInitial" =
          .str (getCompanyInitial
            (getField (normalizeScenarioRecord rawScenario defaults key) "companyName"))
      ∧ (jsTrim (jsToString
            (getField (normalizeScenarioRecord rawScenario defaults key) "companyName")) ≠ "" →
          (getCompanyInitial
            (getField (normalizeScenarioRecord rawScenario defaults key) "companyName")).length = 1)
      ∧ (jsTrim (jsToString
            (getField (normalizeScenarioRecord rawScenario defaults key) "companyName")) = "" →
          getCompanyInitial
            (getField (normalizeScenarioRecord rawScenario defaults key) "companyName") = "") := by
  intro raw defaults key
  simp only [normalizeScenarioRecord]
  have h := scenarioRecordWithIdentity_companyName (scenarioRecordBase raw defaults) key
  have h2 := getCompanyInitial_length _ h.1
  exact ⟨h.1, h.2, h2.1, h2.2⟩

/-- C9 witness: a scenario with no companyName gets "Scenario 2" and the
single-character initial derived through the theorem. -/
theorem scenario_record_identity_witness :
    (getField (normalizeScenarioRecord (.obj []) (.obj []) "2") "companyName").truthy = true
    ∧ (getCompanyInitial
        (getField (normalizeScenarioRecord (.obj []) (.obj []) "2") "companyName")).length = 1 :=
  ⟨(scenario_record_identity (.obj []) (.obj []) "2").1,
   (scenario_record_identity (.obj []) (.obj []) "2").2.2.1 (by decide)⟩

/- ---------------- C1: idempotence of the normalizer ---------------- -/

theorem coerce_isObj (x : JSValue) :
    ∃ m : ObjMap, coerceScenariosPayloadToMap x = .obj m := by
  cases x with
  | obj m =>
      simp only [coerceScenariosPayloadToMap]
      by_cases h : ((getField (.obj m) "scenarios").truthy
          && !(getField (.obj m) "scenarios").isArrayV) = true
      · rw [if_pos h]; exact ⟨_, rfl⟩
      · rw [if_neg h]
        cases getField (.obj m) "scenarios" <;> exact ⟨_, rfl⟩
  | arr items => exact ⟨_, rfl⟩
  | undefined => exact ⟨_, rfl⟩
  | null => exact ⟨_, rfl⟩
  | bool b => exact ⟨_, rfl⟩
  | num n => exact ⟨_, rfl⟩
  | str s => exact ⟨_, rfl⟩

/-- C1 counterexample: the normalizer applied to its own output is not the
output again: a one-message array normalizes to a one-scenario map, but
re-normalizing that map (which carries no scenarios member) yields the empty
map. -/
theorem renormalization_not_idempotent :
    coerceScenariosPayloadToMap (coerceScenariosPayloadToMap
      (.arr [.obj [("role", .str "customer"), ("content", .str "hi")]]))
    ≠ coerceScenariosPayloadToMap
      (.arr [.obj [("role", .str "customer"), ("content", .str "hi")]]) := by
  intro h
  exact absurd (congrArg numFieldsTop h) (by decide)

/-- C1 amended. The normalizer is idempotent exactly on inputs normalizing to
the empty map: when the first pass yields the empty map a second pass is a
no-op, and whenever the output map has no scenarios key (every normalized
output is a bare key-to-record map, so this covers every output without a
scenario literally keyed "scenarios") a second pass collapses it to the empty
map, so re-normalizing a non-empty output is NOT a no-op. -/
theorem renormalization_collapses :
    (∀ x : JSValue, coerceScenariosPayloadToMap x = .obj [] →
      coerceScenariosPayloadToMap (coerceScenariosPayloadToMap x) = coerceScenariosPayloadToMap x)
    ∧ (∀ x : JSValue, lookupTop (coerceScenariosPayloadToMap x) "scenarios" = none →
      coerceScenariosPayloadToMap (coerceScenariosPayloadToMap x) = .obj []) := by
  constructor
  · intro x h
    rw [h]
    rfl
  · intro x h
    obtain ⟨m, hm⟩ := coerce_isObj x
    rw [hm] at h ⊢
    simp only [lookupTop] at h
    simp only [coerceScenariosPayloadToMap, getField_obj, h, Option.getD]
    rfl

/-- C1 witness: the collapse applied to the concrete one-message array, and
the trivial idempotence applied to the empty object. -/
theorem renormalization_collapses_witness :
    coerceScenariosPayloadToMap (coerceScenariosPayloadToMap
      (.arr [.obj [("role", .str "customer"), ("content", .str "hi")]])) = .obj []
    ∧ coerceScenariosPayloadToMap (coerceScenariosPayloadToMap (.obj [])) =
        coerceScenariosPayloadToMap (.obj []) :=
  ⟨renormalization_collapses.2 _ rfl, renormalization_collapses.1 _ rfl⟩

/- ---------------- C2: message arrays become one scenario ---------------- -/

theorem lookupM_withCustomerMessage_ne (m : ObjMap) (conversation : List JSValue)
    (k : String) (h : k ≠ "customerMessage") :
    lookupM (withCustomerMessage m conversation) k = lookupM m k := by
  simp only [withCustomerMessage]
  by_cases hc : (getField (.obj m) "customerMessage").truthy = true
  · rw [if_pos hc]
  · rw [if_neg hc]
    cases conversation.find? (fun msg => msg.truthy &&
        (match getField msg "role" with | .str s => s == "customer" | _ => false) &&
        (getField msg "content").truthy) with
    | some msg => exact lookupM_setFieldM_ne _ _ _ _ h
    | none => rfl

theorem lookupM_withAgentNameDefault_ne (m : ObjMap) (k : String) (h : k ≠ "agentName") :
    lookupM (withAgentNameDefault m) k = lookupM m k := by
  simp only [withAgentNameDefault]
  by_cases hc : (getField (.obj m) "agentName").truthy = true
  · rw [if_pos hc]
  · rw [if_neg hc]; exact lookupM_setFieldM_ne _ _ _ _ h

theorem buildConversation_after_set (m3 : ObjMap) (ms : List JSValue)
    (h : ms.isEmpty = false) :
    buildConversationFromScenario (.obj (setFieldM m3 "conversation" (.arr ms))) =
      normalizeConversationList (.arr ms) := by
  simp only [buildConversationFromScenario]
  rw [getField_obj_set_self]
  simp [JSValue.truthy, isNonEmptyArrayV, h]

theorem scenarioRecordBase_conversation (defaults : JSValue) (ms : List JSValue)
    (hne : ms ≠ []) :
    lookupM (scenarioRecordBase (.obj [("conversation", .arr ms)]) defaults) "conversation"
      = some (.arr (normalizeConversationList (.arr ms))) := by
  have hisEmpty : ms.isEmpty = false := by
    cases ms with
    | nil => exact absurd rfl hne
    | cons a l => rfl
  simp only [scenarioRecordBase,
    show scenarioObjectOf (.obj [("conversation", .arr ms)]) =
      .obj [("conversation", .arr ms)] from rfl,
    show preloadedConversationOf (.obj [("conversation", .arr ms)]) = ms from rfl,
    hisEmpty, Bool.false_eq_true, if_false]
  rw [lookupM_withAgentNameDefault_ne _ _ (by decide),
      lookupM_withCustomerMessage_ne _ _ _ (by decide),
      lookupM_setFieldM_self, buildConversation_after_set _ _ hisEmpty]

theorem getField_identity_ne (m7 : ObjMap) (key k : String)
    (h1 : k ≠ "companyName") (h2 : k ≠ "agentInitial") :
    getField (scenarioRecordWithIdentity m7 key) k = getField (.obj m7) k := by
  simp only [scenarioRecordWithIdentity]
  by_cases hc : (getField (.obj m7) "companyName").truthy = true
  · rw [if_pos hc, getField_obj_set_ne _ _ _ _ h2]
  · rw [if_neg hc, getField_obj_set_ne _ _ _ _ h2, getField_obj_set_ne _ _ _ _ h1]

/-- C2 counterexample: the empty array (whose every element vacuously looks
like a single message) produces zero scenarios, not exactly one. -/
theorem empty_array_no_scenario :
    ¬ ∃ r : JSValue, coerceScenariosPayloadToMap (.arr []) = .obj [("1", r)] := by
  rintro ⟨r, h⟩
  rw [show coerceScenariosPayloadToMap (.arr []) = .obj [] from rfl] at h
  injection h with h'
  exact List.noConfusion h'

/-- C2 amended. Every NON-EMPTY top-level array whose every element looks
like a single message - bare, or as the scenarios array of an object -
produces exactly one scenario keyed "1", never N single-message scenarios,
whose conversation is the message-normalized form of the array. -/
theorem message_array_single_scenario :
    (∀ ms : List JSValue, ms ≠ [] → ms.all isConversationMessageObject = true →
      coerceScenariosPayloadToMap (.arr ms) =
        .obj [("1", normalizeScenarioRecord (.obj [("conversation", .arr ms)]) (.obj []) "1")])
    ∧ (∀ (fields : ObjMap) (ms : List JSValue),
        lookupM fields "scenarios" = some (.arr ms) → ms ≠ [] →
        ms.all isConversationMessageObject = true →
        coerceScenariosPayloadToMap (.obj fields) =
          .obj [("1", normalizeScenarioRecord (.obj [("conversation", .arr ms)])
            (jsOr (getField (.obj fields) "defaults") (.obj [])) "1")])
    ∧ (∀ (defaults : JSValue) (key : String) (ms : List JSValue), ms ≠ [] →
        getField (normalizeScenarioRecord (.obj [("conversation", .arr ms)]) defaults key)
          "conversation" = .arr (normalizeConversationList (.arr ms))) := by
  have hmsgarr : ∀ ms : List JSValue, ms ≠ [] →
      ms.all isConversationMessageObject = true → isMessageArray (.arr ms) = true := by
    intro ms hne hall
    have hisEmpty : ms.isEmpty = false := by
      cases ms with
      | nil => exact absurd rfl hne
      | cons a l => rfl
    simp [isMessageArray, hisEmpty, hall]
  refine ⟨?_, ?_, ?_⟩
  · intro ms hne hall
    simp only [coerceScenariosPayloadToMap, coerceArrayToScenarioMap, hmsgarr ms hne hall,
      if_true]
  · intro fields ms hlook hne hall
    have hsc : getField (.obj fields) "scenarios" = .arr ms := by
      simp [getField_obj, hlook]
    simp only [coerceScenariosPayloadToMap, hsc]
    rw [if_neg (by simp [JSValue.isArrayV])]
    simp only [coerceArrayToScenarioMap, hmsgarr ms hne hall, if_true]
  · intro defaults key ms hne
    simp only [normalizeScenarioRecord]
    rw [getField_identity_ne _ _ _ (by decide) (by decide), getField_obj,
        scenarioRecordBase_conversation defaults ms hne]
    rfl

/-- C2 witness: the three parts applied to a concrete one-message array. -/
theorem message_array_single_scenario_witness :
    coerceScenariosPayloadToMap (.arr [.obj [("message_text", .str "hello")]]) =
      .obj [("1", normalizeScenarioRecord
        (.obj [("conversation", .arr [.obj [("message_text", .str "hello")]])]) (.obj []) "1")]
    ∧ getField (normalizeScenarioRecord
        (.obj [("conversation", .arr [.obj [("message_text", .str "hello")]])]) (.obj []) "1")
        "conversation" =
      .arr (normalizeConversationList (.arr [.obj [("message_text", .str "hello")]])) :=
  ⟨message_array_single_scenario.1 _ (by simp) rfl,
   message_array_single_scenario.2.2 (.obj []) "1" _ (by simp)⟩

end QA
